import Mathlib

/-!
Verification of the golang-youtube-downloader repository against its
natural-language specification.  Go strings are modelled as `List Char`
(`Str`), Go `int`/`int64` as `Int`, Go `float64` arithmetic as `ℚ`,
`time.Time` as Unix seconds (`Int`), pointers as `Option`, and fallible
functions as `Option`/sum results.  `url.Parse` and the HTTP transport are
Go standard library (outside this repository); their outcomes are passed to
the embedded functions as explicit parameters, so every theorem quantifies
over all possible outcomes.
-/

/-- Go strings, modelled as lists of characters. -/
abbrev Str := List Char

/-- Convenience conversion from Lean string literals to `Str`. -/
def str (s : String) : Str := s.toList

/-- Characters accepted by Go `unicode.IsSpace` (the set trimmed by
`strings.TrimSpace`). -/
def isSpaceGo (c : Char) : Bool :=
  [' ', '\t', '\n', (Char.ofNat 11), (Char.ofNat 12), '\r',
   (Char.ofNat 0x85), (Char.ofNat 0xA0), (Char.ofNat 0x1680),
   (Char.ofNat 0x2000), (Char.ofNat 0x2001), (Char.ofNat 0x2002),
   (Char.ofNat 0x2003), (Char.ofNat 0x2004), (Char.ofNat 0x2005),
   (Char.ofNat 0x2006), (Char.ofNat 0x2007), (Char.ofNat 0x2008),
   (Char.ofNat 0x2009), (Char.ofNat 0x200A), (Char.ofNat 0x2028),
   (Char.ofNat 0x2029), (Char.ofNat 0x202F), (Char.ofNat 0x205F),
   (Char.ofNat 0x3000)].contains c

/-- Go `strings.TrimSpace`: drop leading and trailing whitespace. -/
def trimSpace (s : Str) : Str :=
  ((s.dropWhile isSpaceGo).reverse.dropWhile isSpaceGo).reverse

/-- Go `strings.TrimPrefix`. -/
def trimPrefixStr (s pre : Str) : Str :=
  if pre.isPrefixOf s then s.drop pre.length else s

/-- Go `strings.TrimSuffix`. -/
def trimSuffixStr (s suf : Str) : Str :=
  if suf.isSuffixOf s then s.take (s.length - suf.length) else s

/-!
C3: `Progress.Percentage` (src/pkg/download/download.go).
-/

/-- Embedding of `download.Progress` (`Downloaded`, `Total` are Go `int64`). -/
structure Progress where
  downloaded : Int
  total : Int
deriving DecidableEq

/-- Embedding of `Progress.Percentage` (download.go): Go float64 division is
modelled over `ℚ`.  The source tests `p.Total == 0`, not `p.Total > 0`. -/
def Progress.Percentage (p : Progress) : ℚ :=
  if p.total = 0 then 0 else (p.downloaded : ℚ) / (p.total : ℚ) * 100

/-- The percentage formula exactly as claim C3 states it
(`downloaded/total·100` when `total > 0`, else `0`). -/
def percentageClaimed (p : Progress) : ℚ :=
  if p.total > 0 then (p.downloaded : ℚ) / (p.total : ℚ) * 100 else 0

/-- C3 counterexample: at `{downloaded := 50, total := -1}` the code divides
through (giving `-5000`), while the claim demands `0` for every `total ≤ 0`. -/
theorem c3_percentage_counterexample :
    Progress.Percentage ⟨50, -1⟩ ≠ percentageClaimed ⟨50, -1⟩ := by
  norm_num [Progress.Percentage, percentageClaimed]

/-- C3 (amended): `Percentage` returns `0` exactly when `total = 0`; for every
other total (positive or negative) it returns `downloaded/total·100`. -/
theorem c3_percentage_amended (p : Progress) :
    (p.total = 0 → p.Percentage = 0) ∧
    (p.total ≠ 0 → p.Percentage = (p.downloaded : ℚ) / (p.total : ℚ) * 100) := by
  constructor
  · intro h
    simp [Progress.Percentage, h]
  · intro h
    simp [Progress.Percentage, h]

/-- C3 witness: the amended theorem applied at `{downloaded := 50, total := 200}`. -/
theorem c3_percentage_witness : Progress.Percentage ⟨50, 200⟩ = 25 := by
  have h := (c3_percentage_amended ⟨50, 200⟩).2 (by norm_num)
  rw [h]
  norm_num

/-!
Identifier parsing (src/pkg/youtube/videoid.go, playlistid.go and the
channel-identifier file).  The regular expressions in the source are all
anchored alternations over the character class `[a-zA-Z0-9_-]`; they are
transcribed alternative by alternative.
-/

/-- The regex character class `[a-zA-Z0-9_-]` used by every identifier regex. -/
def isIDChar (c : Char) : Bool :=
  c.isAlpha || c.isDigit || c == '_' || c == '-'

/-- Embedding of `IsValidVideoID` (videoid.go): the anchored regex
`^[a-zA-Z0-9_-]{11}$`. -/
def IsValidVideoID (s : Str) : Bool :=
  s.length == 11 && s.all isIDChar

/-- Embedding of `IsValidPlaylistID` (playlistid.go): the anchored regex
`^(PL[a-zA-Z0-9_-]{32}|WL|LL|LM|RD[a-zA-Z0-9_-]+|OL[a-zA-Z0-9_-]+|`
`OLAK5uy_[a-zA-Z0-9_-]+|UU[a-zA-Z0-9_-]+|FL[a-zA-Z0-9_-]+)$`,
transcribed one alternative at a time. -/
def IsValidPlaylistID (s : Str) : Bool :=
  ((str "PL").isPrefixOf s && (s.drop 2).length == 32 && (s.drop 2).all isIDChar)
  || s == str "WL" || s == str "LL" || s == str "LM"
  || ((str "RD").isPrefixOf s && !(s.drop 2).isEmpty && (s.drop 2).all isIDChar)
  || ((str "OL").isPrefixOf s && !(s.drop 2).isEmpty && (s.drop 2).all isIDChar)
  || ((str "OLAK5uy_").isPrefixOf s && !(s.drop 8).isEmpty && (s.drop 8).all isIDChar)
  || ((str "UU").isPrefixOf s && !(s.drop 2).isEmpty && (s.drop 2).all isIDChar)
  || ((str "FL").isPrefixOf s && !(s.drop 2).isEmpty && (s.drop 2).all isIDChar)

/-- Embedding of `IsValidChannelID`: the anchored regex
`^UC[a-zA-Z0-9_-]{22}$`. -/
def IsValidChannelID (s : Str) : Bool :=
  (str "UC").isPrefixOf s && (s.drop 2).length == 22 && (s.drop 2).all isIDChar

/-- The playlist-id shape exactly as claim C5 states it: identical to the
regex except that the `RD` alternative demands a valid 11-character video id
after `RD`. -/
def playlistIDShapeClaimed (s : Str) : Bool :=
  ((str "PL").isPrefixOf s && (s.drop 2).length == 32 && (s.drop 2).all isIDChar)
  || s == str "WL" || s == str "LL" || s == str "LM"
  || ((str "RD").isPrefixOf s && IsValidVideoID (s.drop 2))
  || ((str "OL").isPrefixOf s && !(s.drop 2).isEmpty && (s.drop 2).all isIDChar)
  || ((str "OLAK5uy_").isPrefixOf s && !(s.drop 8).isEmpty && (s.drop 8).all isIDChar)
  || ((str "UU").isPrefixOf s && !(s.drop 2).isEmpty && (s.drop 2).all isIDChar)
  || ((str "FL").isPrefixOf s && !(s.drop 2).isEmpty && (s.drop 2).all isIDChar)

/-- C5 counterexample: `"RDabc"` is accepted by the source regex (whose `RD`
alternative takes any nonempty run of id characters) but rejected by the
claim's shape, which demands an 11-character video id after `RD`. -/
theorem c5_playlistid_counterexample :
    IsValidPlaylistID (str "RDabc") = true ∧
    playlistIDShapeClaimed (str "RDabc") = false := by decide

/-- Prefix matching expressed by list append. -/
theorem isPrefixOf_eq_true_iff (pre s : Str) :
    pre.isPrefixOf s = true ↔ ∃ t, s = pre ++ t := by
  induction pre generalizing s with
  | nil => simp [List.isPrefixOf]
  | cons a pre ih =>
    cases s with
    | nil => simp [List.isPrefixOf]
    | cons b s =>
      simp only [List.isPrefixOf, Bool.and_eq_true, beq_iff_eq, ih, List.cons_append,
        List.cons.injEq]
      constructor
      · rintro ⟨rfl, t, rfl⟩
        exact ⟨t, rfl, rfl⟩
      · rintro ⟨t, rfl, rfl⟩
        exact ⟨rfl, t, rfl⟩

/-- A `prefix + nonempty id-char run` regex alternative, rephrased as an
existential over the body. -/
theorem prefixAlt_iff (pre s : Str) (n : Nat) (hn : pre.length = n) :
    (pre.isPrefixOf s && !(s.drop n).isEmpty && (s.drop n).all isIDChar) = true ↔
      ∃ body, s = pre ++ body ∧ body ≠ [] ∧ ∀ c ∈ body, isIDChar c = true := by
  subst hn
  simp only [Bool.and_eq_true, isPrefixOf_eq_true_iff, List.all_eq_true,
    Bool.not_eq_true', List.isEmpty_eq_false]
  constructor
  · rintro ⟨⟨⟨t, rfl⟩, hne⟩, hall⟩
    rw [List.drop_left] at hne hall
    exact ⟨t, rfl, hne, hall⟩
  · rintro ⟨body, rfl, hne, hall⟩
    rw [List.drop_left]
    exact ⟨⟨⟨body, rfl⟩, hne⟩, hall⟩

/-- A `prefix + exactly n id chars` regex alternative, rephrased as an
existential over the body. -/
theorem prefixLenAlt_iff (pre s : Str) (n m : Nat) (hn : pre.length = n) :
    (pre.isPrefixOf s && (s.drop n).length == m && (s.drop n).all isIDChar) = true ↔
      ∃ body, s = pre ++ body ∧ body.length = m ∧ ∀ c ∈ body, isIDChar c = true := by
  subst hn
  simp only [Bool.and_eq_true, isPrefixOf_eq_true_iff, List.all_eq_true, beq_iff_eq]
  constructor
  · rintro ⟨⟨⟨t, rfl⟩, hlen⟩, hall⟩
    rw [List.drop_left] at hlen hall
    exact ⟨t, rfl, hlen, hall⟩
  · rintro ⟨body, rfl, hlen, hall⟩
    rw [List.drop_left]
    exact ⟨⟨⟨body, rfl⟩, hlen⟩, hall⟩

/-- The amended C5 shape: as the claim, except that the `RD` alternative
accepts any nonempty run over `[A-Za-z0-9_-]`. -/
def PlaylistIDShapeAmended (s : Str) : Prop :=
  (∃ body, s = str "PL" ++ body ∧ body.length = 32 ∧ ∀ c ∈ body, isIDChar c = true)
  ∨ s = str "WL" ∨ s = str "LL" ∨ s = str "LM"
  ∨ (∃ body, s = str "RD" ++ body ∧ body ≠ [] ∧ ∀ c ∈ body, isIDChar c = true)
  ∨ (∃ body, s = str "OL" ++ body ∧ body ≠ [] ∧ ∀ c ∈ body, isIDChar c = true)
  ∨ (∃ body, s = str "OLAK5uy_" ++ body ∧ body ≠ [] ∧ ∀ c ∈ body, isIDChar c = true)
  ∨ (∃ body, s = str "UU" ++ body ∧ body ≠ [] ∧ ∀ c ∈ body, isIDChar c = true)
  ∨ (∃ body, s = str "FL" ++ body ∧ body ≠ [] ∧ ∀ c ∈ body, isIDChar c = true)

/-- C5 (amended): `IsValidPlaylistID` accepts exactly the strings of shape
`PL` + 32 id chars, `WL`, `LL`, `LM`, `RD` + a nonempty id-char run, `OL…`,
`OLAK5uy_…`, `UU…` or `FL…`. -/
theorem c5_playlistid_amended (s : Str) :
    IsValidPlaylistID s = true ↔ PlaylistIDShapeAmended s := by
  unfold IsValidPlaylistID PlaylistIDShapeAmended
  simp only [Bool.or_eq_true, beq_iff_eq]
  rw [prefixLenAlt_iff (str "PL") s 2 32 rfl,
    prefixAlt_iff (str "RD") s 2 rfl, prefixAlt_iff (str "OL") s 2 rfl,
    prefixAlt_iff (str "OLAK5uy_") s 8 rfl, prefixAlt_iff (str "UU") s 2 rfl,
    prefixAlt_iff (str "FL") s 2 rfl]
  simp only [or_assoc]

/-!
URL-based parsing.  `net/url.Parse` belongs to the Go standard library, so a
parsed URL is modelled as a record and each embedded parser receives the
outcome of `url.Parse` on its (trimmed) input as an explicit
`Option GoURL` argument (`none` for a parse error); every theorem below
therefore quantifies over all possible parse outcomes.  `url.Values.Get`
is modelled over an association list of query parameters (first value
wins, missing key gives the empty string), matching `Query().Get`.
-/

/-- A parsed URL as consumed by the repository: host, path and the decoded
query parameters. -/
structure GoURL where
  host : Str
  path : Str
  query : List (Str × Str)
deriving DecidableEq

/-- Embedding of `parsedURL.Query().Get(key)`: first value for the key, or
the empty string. -/
def queryGet (q : List (Str × Str)) (key : Str) : Str :=
  match q.find? (fun kv => kv.fst == key) with
  | some kv => kv.snd
  | none => []

/-- ASCII lowering of a host string (Go `strings.ToLower`; the recognized
hosts are ASCII). -/
def lowerStr (s : Str) : Str := s.map Char.toLower

/-- Embedding of `isYouTubeHost` (playlistid.go). -/
def isYouTubeHost (host : Str) : Bool :=
  let host := lowerStr host
  host == str "youtube.com" || host == str "www.youtube.com"
    || host == str "m.youtube.com" || host == str "youtu.be"

/-- Embedding of `isYouTubeWatchURL` (videoid.go). -/
def isYouTubeWatchURL (u : GoURL) : Bool :=
  let host := lowerStr u.host
  (host == str "youtube.com" || host == str "www.youtube.com"
      || host == str "m.youtube.com")
    && u.path == str "/watch" && !(queryGet u.query (str "v")).isEmpty

/-- Embedding of `isYouTubeShortURL` (videoid.go). -/
def isYouTubeShortURL (u : GoURL) : Bool :=
  lowerStr u.host == str "youtu.be" && u.path.length > 1

/-- Embedding of `isYouTubeEmbedURL` (videoid.go). -/
def isYouTubeEmbedURL (u : GoURL) : Bool :=
  let host := lowerStr u.host
  (host == str "youtube.com" || host == str "www.youtube.com")
    && (str "/embed/").isPrefixOf u.path

/-- Embedding of `isYouTubeVURL` (videoid.go). -/
def isYouTubeVURL (u : GoURL) : Bool :=
  let host := lowerStr u.host
  (host == str "youtube.com" || host == str "www.youtube.com")
    && (str "/v/").isPrefixOf u.path

/-- Embedding of `extractPathID` (videoid.go): strip the prefix, then cut at
the first `?` or `/` (Go `strings.IndexAny(id, "?/")`). -/
def extractPathID (path pre : Str) : Str :=
  (trimPrefixStr path pre).takeWhile (fun c => !(c == '?' || c == '/'))

/-- Embedding of `ParseVideoID` (videoid.go).  Go's `(string, error)` result
is modelled as `Option Str` (`none` for `ErrInvalidVideoID`). -/
def ParseVideoID (input : Str) (parsed : Option GoURL) : Option Str :=
  let input := trimSpace input
  if input.isEmpty then none
  else if IsValidVideoID input then some input
  else
    match parsed with
    | none => none
    | some u =>
      let videoID : Option Str :=
        if isYouTubeWatchURL u then some (queryGet u.query (str "v"))
        else if isYouTubeShortURL u then some (trimPrefixStr u.path (str "/"))
        else if isYouTubeEmbedURL u then some (extractPathID u.path (str "/embed/"))
        else if isYouTubeVURL u then some (extractPathID u.path (str "/v/"))
        else none
      match videoID with
      | none => none
      | some vid => if IsValidVideoID vid then some vid else none

/-- C10: whenever `ParseVideoID` succeeds — whatever the input string and
whatever `url.Parse` produced — the returned string is a valid 11-character
video id. -/
theorem c10_parsevideoid_valid (input : Str) (parsed : Option GoURL) (v : Str)
    (h : ParseVideoID input parsed = some v) : IsValidVideoID v = true := by
  unfold ParseVideoID at h
  dsimp only at h
  split at h
  · exact absurd h (by simp)
  · split at h
    · rename_i hvalid
      rw [Option.some.injEq] at h
      exact h ▸ hvalid
    · split at h
      · exact absurd h (by simp)
      · split at h
        · exact absurd h (by simp)
        · split at h
          · rename_i hvalid
            rw [Option.some.injEq] at h
            exact h ▸ hvalid
          · exact absurd h (by simp)

/-- C10 witness: the theorem applied to the raw id `"dQw4w9WgXcQ"` (with a
failed URL parse, which the raw-id path never consults). -/
theorem c10_parsevideoid_valid_witness : IsValidVideoID (str "dQw4w9WgXcQ") = true :=
  c10_parsevideoid_valid (str "dQw4w9WgXcQ") none (str "dQw4w9WgXcQ") (by decide)

/-!
Playlist and channel parsing (playlistid.go and the channel-identifier
file), and the query resolver (`ResolveQuery`).  Go's string-typed
`QueryType`/`ChannelType` values are kept as strings.
-/

/-- Embedding of `ParsePlaylistID` (playlistid.go); `none` stands for
`ErrInvalidPlaylistID`. -/
def ParsePlaylistID (input : Str) (parsed : Option GoURL) : Option Str :=
  let input := trimSpace input
  if input.isEmpty then none
  else if IsValidPlaylistID input then some input
  else
    match parsed with
    | none => none
    | some u =>
      if !isYouTubeHost u.host then none
      else
        let playlistID := queryGet u.query (str "list")
        if playlistID.isEmpty then none
        else if !IsValidPlaylistID playlistID then none
        else some playlistID

/-- The `ChannelTypeID` constant (`"id"`). -/
def channelTypeID : Str := str "id"

/-- The `ChannelTypeHandle` constant (`"handle"`). -/
def channelTypeHandle : Str := str "handle"

/-- The `ChannelTypeCustom` constant (`"custom"`). -/
def channelTypeCustom : Str := str "custom"

/-- The `ChannelTypeUser` constant (`"user"`). -/
def channelTypeUser : Str := str "user"

/-- Embedding of `ChannelIdentifier`: a parsed channel identifier with its
string-typed kind. -/
structure ChannelIdentifier where
  type : Str
  value : Str
deriving DecidableEq

/-- Embedding of `extractFirstPathSegment`: everything before the first `/`
(Go `strings.Index(path, "/")`). -/
def extractFirstPathSegment (path : Str) : Str :=
  path.takeWhile (fun c => !(c == '/'))

/-- Embedding of `ParseChannelIdentifier`; `none` stands for
`ErrInvalidChannelID`. -/
def ParseChannelIdentifier (input : Str) (parsed : Option GoURL) :
    Option ChannelIdentifier :=
  let input := trimSpace input
  if input.isEmpty then none
  else if IsValidChannelID input then some ⟨channelTypeID, input⟩
  else
    match parsed with
    | none => none
    | some u =>
      if !isYouTubeHost u.host then none
      else
        let path := trimSuffixStr u.path (str "/")
        if (str "/channel/").isPrefixOf path then
          let channelID := extractFirstPathSegment (trimPrefixStr path (str "/channel/"))
          if IsValidChannelID channelID then some ⟨channelTypeID, channelID⟩ else none
        else if (str "/@").isPrefixOf path then
          let handle := extractFirstPathSegment (trimPrefixStr path (str "/@"))
          if !handle.isEmpty then some ⟨channelTypeHandle, handle⟩ else none
        else if (str "/c/").isPrefixOf path then
          let customName := extractFirstPathSegment (trimPrefixStr path (str "/c/"))
          if !customName.isEmpty then some ⟨channelTypeCustom, customName⟩ else none
        else if (str "/user/").isPrefixOf path then
          let username := extractFirstPathSegment (trimPrefixStr path (str "/user/"))
          if !username.isEmpty then some ⟨channelTypeUser, username⟩ else none
        else none

/-- Embedding of `ChannelToUploadsPlaylistID`: replace the `UC` prefix with
`UU`; the empty string for an invalid channel id. -/
def ChannelToUploadsPlaylistID (channelID : Str) : Str :=
  if !IsValidChannelID channelID then []
  else str "UU" ++ channelID.drop 2

/-- Embedding of `ChannelIdentifier.UploadsPlaylistID`: only id-type
identifiers convert; every other type yields the empty string. -/
def ChannelIdentifier.UploadsPlaylistID (ci : ChannelIdentifier) : Str :=
  if ci.type ≠ channelTypeID then []
  else ChannelToUploadsPlaylistID ci.value

/-- C7: for every valid channel id `UC<body>` (22 id characters), the
uploads playlist id is `UU<body>`, `UploadsPlaylistID` returns it for
id-type identifiers, and every handle/custom/user identifier yields the
empty string. -/
theorem c7_uploads_playlist (body : Str) (hlen : body.length = 22)
    (hall : body.all isIDChar = true) :
    ChannelToUploadsPlaylistID (str "UC" ++ body) = str "UU" ++ body ∧
    ChannelIdentifier.UploadsPlaylistID ⟨channelTypeID, str "UC" ++ body⟩ =
      str "UU" ++ body ∧
    ∀ t v, (t = channelTypeHandle ∨ t = channelTypeCustom ∨ t = channelTypeUser) →
      ChannelIdentifier.UploadsPlaylistID ⟨t, v⟩ = [] := by
  have hvalid : IsValidChannelID (str "UC" ++ body) = true := by
    unfold IsValidChannelID
    rw [show (2 : Nat) = (str "UC").length from rfl, List.drop_left]
    simp [isPrefixOf_eq_true_iff, hlen, hall]
  have hconv : ChannelToUploadsPlaylistID (str "UC" ++ body) = str "UU" ++ body := by
    unfold ChannelToUploadsPlaylistID
    rw [hvalid]
    rw [show (2 : Nat) = (str "UC").length from rfl, List.drop_left]
    simp
  refine ⟨hconv, ?_, ?_⟩
  · unfold ChannelIdentifier.UploadsPlaylistID
    simpa using hconv
  · rintro t v (rfl | rfl | rfl) <;>
      simp only [ChannelIdentifier.UploadsPlaylistID] <;>
      rw [if_pos (by decide)]

/-- C7 witness: the theorem applied to the 22-character body
`"uAXFkgsw1L7xaCfnd5JJOw"`. -/
theorem c7_uploads_playlist_witness :
    ChannelToUploadsPlaylistID (str "UCuAXFkgsw1L7xaCfnd5JJOw") =
      str "UUuAXFkgsw1L7xaCfnd5JJOw" := by
  have h := (c7_uploads_playlist (str "uAXFkgsw1L7xaCfnd5JJOw")
    (by decide) (by decide)).1
  exact h

/-- The `QueryTypeVideo` constant (`"video"`). -/
def queryTypeVideo : Str := str "video"

/-- The `QueryTypePlaylist` constant (`"playlist"`). -/
def queryTypePlaylist : Str := str "playlist"

/-- The `QueryTypeChannel` constant (`"channel"`). -/
def queryTypeChannel : Str := str "channel"

/-- The `QueryTypeSearch` constant (`"search"`). -/
def queryTypeSearch : Str := str "search"

/-- Embedding of `QueryResult`. -/
structure QueryResult where
  type : Str
  videoID : Str
  playlistID : Str
  channel : ChannelIdentifier
  searchQuery : Str
deriving DecidableEq

/-- The Go zero value of `QueryResult` (all strings empty). -/
def QueryResult.empty : QueryResult := ⟨[], [], [], ⟨[], []⟩, []⟩

/-- The fallback chain at the end of `ResolveQuery`: try `ParseVideoID`,
then `ParsePlaylistID`, then `ParseChannelIdentifier`. -/
def resolveQueryFallback (input : Str) (parsed : Option GoURL) :
    Option QueryResult :=
  match ParseVideoID input parsed with
  | some videoID =>
    some { QueryResult.empty with type := queryTypeVideo, videoID := videoID }
  | none =>
    match ParsePlaylistID input parsed with
    | some playlistID =>
      some { QueryResult.empty with type := queryTypePlaylist, playlistID := playlistID }
    | none =>
      match ParseChannelIdentifier input parsed with
      | some channel =>
        some { QueryResult.empty with type := queryTypeChannel, channel := channel }
      | none => none

/-- Embedding of `ResolveQuery`; `none` stands for `ErrUnresolvableQuery`.
As in the source, the URL parse outcome for the trimmed input feeds both the
watch-URL branch and the fallback parsers. -/
def ResolveQuery (input : Str) (parsed : Option GoURL) : Option QueryResult :=
  let input := trimSpace input
  if input.isEmpty then none
  else if (str "?").isPrefixOf input then
    let searchQuery := trimPrefixStr input (str "?")
    if searchQuery.isEmpty then none
    else some { QueryResult.empty with type := queryTypeSearch, searchQuery := searchQuery }
  else
    match parsed with
    | some u =>
      if isYouTubeHost u.host && (str "/watch").isPrefixOf u.path then
        let videoID := queryGet u.query (str "v")
        let playlistID := queryGet u.query (str "list")
        if IsValidVideoID videoID then
          some { QueryResult.empty with
                  type := queryTypeVideo,
                  videoID := videoID,
                  playlistID := if IsValidPlaylistID playlistID then playlistID else [] }
        else resolveQueryFallback input parsed
      else resolveQueryFallback input parsed
    | none => resolveQueryFallback input parsed

/-- C6: a watch URL on a recognized YouTube host whose `v` parameter is a
valid video id resolves to a video-kind result carrying that id, and when
the `list` parameter is a valid playlist id the result carries it as
context. -/
theorem c6_resolvequery_watch (input : Str) (u : GoURL)
    (hne : (trimSpace input).isEmpty = false)
    (hq : (str "?").isPrefixOf (trimSpace input) = false)
    (hhost : isYouTubeHost u.host = true)
    (hpath : (str "/watch").isPrefixOf u.path = true)
    (hvalid : IsValidVideoID (queryGet u.query (str "v")) = true) :
    ∃ r, ResolveQuery input (some u) = some r ∧
      r.type = queryTypeVideo ∧
      r.videoID = queryGet u.query (str "v") ∧
      (IsValidPlaylistID (queryGet u.query (str "list")) = true →
        r.playlistID = queryGet u.query (str "list")) := by
  refine ⟨{ QueryResult.empty with
            type := queryTypeVideo,
            videoID := queryGet u.query (str "v"),
            playlistID := if IsValidPlaylistID (queryGet u.query (str "list")) then
                queryGet u.query (str "list")
              else [] }, ?_, rfl, rfl, ?_⟩
  · unfold ResolveQuery
    simp only [hne, Bool.false_eq_true, if_false, hq, hhost, hpath, Bool.and_self,
      if_true, hvalid]
  · intro hpl
    simp [hpl]

/-- C6 witness: the theorem applied to
`https://www.youtube.com/watch?v=dQw4w9WgXcQ&list=PL0123456789abcdefghijklmnopqrstuv`. -/
theorem c6_resolvequery_watch_witness :
    ∃ r, ResolveQuery (str "https://www.youtube.com/watch?v=dQw4w9WgXcQ")
        (some ⟨str "www.youtube.com", str "/watch",
          [(str "v", str "dQw4w9WgXcQ"),
           (str "list", str "PL0123456789abcdefghijklmnopqrstuv")]⟩) = some r ∧
      r.type = queryTypeVideo ∧
      r.videoID = str "dQw4w9WgXcQ" ∧
      r.playlistID = str "PL0123456789abcdefghijklmnopqrstuv" := by
  obtain ⟨r, hr, ht, hv, hp⟩ := c6_resolvequery_watch
    (str "https://www.youtube.com/watch?v=dQw4w9WgXcQ")
    ⟨str "www.youtube.com", str "/watch",
      [(str "v", str "dQw4w9WgXcQ"),
       (str "list", str "PL0123456789abcdefghijklmnopqrstuv")]⟩
    (by decide) (by decide) (by decide) (by decide) (by decide)
  refine ⟨r, hr, ht, ?_, ?_⟩
  · rw [hv]; decide
  · rw [hp (by decide)]; decide

/-!
Cookie loading (src/pkg/youtube/cookie.go).  `time.Time` is modelled as Unix
seconds; `time.Now()` is passed in as the parameter `now`; `time.Unix(n, 0)`
is `n`; `Add(100 * 365 * 24 * time.Hour)` adds `100 * 365 * 24 * 3600`
seconds.  File I/O (`LoadCookiesFromFile`) is out of scope; the claim is
about the line parser `parseCookieLine`.
-/

/-- Embedding of the `Cookie` record (expiry as Unix seconds). -/
structure Cookie where
  name : Str
  value : Str
  domain : Str
  path : Str
  expires : Int
  secure : Bool
deriving DecidableEq

/-- ASCII case folding of Go `strings.EqualFold` as used on the
`"TRUE"`/`"FALSE"` flags. -/
def equalFoldAscii (a b : Str) : Bool :=
  lowerStr a == lowerStr b

/-- Go `strconv.ParseInt(s, 10, 64)`: optional sign, decimal digits,
64-bit range check. -/
def parseInt64 (s : Str) : Option Int :=
  let signDigits : Bool × Str :=
    match s with
    | '+' :: rest => (false, rest)
    | '-' :: rest => (true, rest)
    | rest => (false, rest)
  let neg := signDigits.fst
  let digits := signDigits.snd
  if digits.isEmpty || !digits.all Char.isDigit then none
  else
    let mag : Int := digits.foldl (fun a c => a * 10 + ((c.toNat : Int) - 48)) 0
    let v := if neg then -mag else mag
    if -(2 ^ 63) ≤ v ∧ v ≤ 2 ^ 63 - 1 then some v else none

/-- Seconds in one 365-day year, the year length used by the source's
far-future constant `100 * 365 * 24 * time.Hour`. -/
def secondsPerYear : Int := 365 * 24 * 3600

/-- Embedding of `parseCookieLine` (cookie.go).  The result is `none` for a
parse error, `some none` for a skipped comment/blank line and
`some (some c)` for a parsed cookie. -/
def parseCookieLine (now : Int) (line : Str) : Option (Option Cookie) :=
  let line := trimSpace line
  if line.isEmpty || (str "#").isPrefixOf line then some none
  else
    let parts := List.splitOn '\t' line
    if parts.length < 7 then none
    else
      let expirationStr := trimSpace (parts.getD 4 [])
      let expiresOpt : Option Int :=
        if expirationStr ≠ str "0" then
          parseInt64 expirationStr
        else
          some (now + 100 * 365 * 24 * 3600)
      match expiresOpt with
      | none => none
      | some expires =>
        let secure := equalFoldAscii (trimSpace (parts.getD 3 [])) (str "TRUE")
        some (some
          { domain := trimSpace (parts.getD 0 [])
            path := trimSpace (parts.getD 2 [])
            secure := secure
            expires := expires
            name := trimSpace (parts.getD 5 [])
            value := trimSpace (parts.getD 6 []) })

/-- C4: on a well-formed seven-field cookie line, an expiration field of
`"0"` yields a cookie expiring `100 * 365 * 24 * 3600` seconds after the
moment of parsing — at least 100 years later, a year taken as 365 days as in
the source constant — and every other (parseable) expiration value is used
directly as the Unix-seconds expiry. -/
theorem c4_cookie_expiration (now : Int) (line : Str)
    (hne : (trimSpace line).isEmpty = false)
    (hnc : (str "#").isPrefixOf (trimSpace line) = false)
    (hlen : 7 ≤ (List.splitOn '\t' (trimSpace line)).length) :
    (trimSpace ((List.splitOn '\t' (trimSpace line)).getD 4 []) = str "0" →
      ∃ c, parseCookieLine now line = some (some c) ∧
        c.expires = now + 100 * 365 * 24 * 3600 ∧
        now + 100 * secondsPerYear ≤ c.expires) ∧
    (∀ n, trimSpace ((List.splitOn '\t' (trimSpace line)).getD 4 []) ≠ str "0" →
      parseInt64 (trimSpace ((List.splitOn '\t' (trimSpace line)).getD 4 [])) = some n →
      ∃ c, parseCookieLine now line = some (some c) ∧ c.expires = n) := by
  have hlt : ¬ (List.splitOn '\t' (trimSpace line)).length < 7 := by omega
  constructor
  · intro h0
    refine ⟨{ domain := trimSpace ((List.splitOn '\t' (trimSpace line)).getD 0 [])
              path := trimSpace ((List.splitOn '\t' (trimSpace line)).getD 2 [])
              secure := equalFoldAscii
                (trimSpace ((List.splitOn '\t' (trimSpace line)).getD 3 [])) (str "TRUE")
              expires := now + 100 * 365 * 24 * 3600
              name := trimSpace ((List.splitOn '\t' (trimSpace line)).getD 5 [])
              value := trimSpace ((List.splitOn '\t' (trimSpace line)).getD 6 []) },
      ?_, rfl, ?_⟩
    · unfold parseCookieLine
      dsimp only
      rw [if_neg (by simp [hne, hnc]), if_neg hlt, if_neg (not_not_intro h0)]
    · dsimp only
      unfold secondsPerYear
      omega
  · intro n hn hparse
    refine ⟨{ domain := trimSpace ((List.splitOn '\t' (trimSpace line)).getD 0 [])
              path := trimSpace ((List.splitOn '\t' (trimSpace line)).getD 2 [])
              secure := equalFoldAscii
                (trimSpace ((List.splitOn '\t' (trimSpace line)).getD 3 [])) (str "TRUE")
              expires := n
              name := trimSpace ((List.splitOn '\t' (trimSpace line)).getD 5 [])
              value := trimSpace ((List.splitOn '\t' (trimSpace line)).getD 6 []) },
      ?_, rfl⟩
    unfold parseCookieLine
    dsimp only
    rw [if_neg (by simp [hne, hnc]), if_neg hlt, if_pos hn, hparse]

/-- C4 witness: the theorem applied at `now = 1700000000` to the line
`".youtube.com<TAB>TRUE<TAB>/<TAB>TRUE<TAB>0<TAB>__Secure-1PSID<TAB>v"`, and
to the same line with expiration `1735689600`. -/
theorem c4_cookie_expiration_witness :
    (∃ c, parseCookieLine 1700000000
        (str ".youtube.com\tTRUE\t/\tTRUE\t0\t__Secure-1PSID\tv") = some (some c) ∧
      c.expires = 1700000000 + 100 * 365 * 24 * 3600 ∧
      1700000000 + 100 * secondsPerYear ≤ c.expires) ∧
    (∃ c, parseCookieLine 1700000000
        (str ".youtube.com\tTRUE\t/\tTRUE\t1735689600\t__Secure-1PSID\tv") =
          some (some c) ∧
      c.expires = 1735689600) := by
  constructor
  · exact (c4_cookie_expiration 1700000000
      (str ".youtube.com\tTRUE\t/\tTRUE\t0\t__Secure-1PSID\tv")
      (by decide) (by decide) (by decide)).1 (by decide)
  · exact (c4_cookie_expiration 1700000000
      (str ".youtube.com\tTRUE\t/\tTRUE\t1735689600\t__Secure-1PSID\tv")
      (by decide) (by decide) (by decide)).2 1735689600 (by decide) (by decide)

/-!
Watch-page fetching (the `WatchPageFetcher` file).  The HTTP transport is
the Go standard library: request construction, transport errors and body
read errors are outside this embedding, so `Fetch` is modelled as the
response-status dispatch applied to the response the transport delivered,
passed in as an explicit argument.
-/

/-- An HTTP response as consumed by `Fetch`: its status code and its body
read to a string. -/
structure HTTPResponse where
  statusCode : Int
  body : Str
deriving DecidableEq

/-- Embedding of `WatchPage`. -/
structure WatchPage where
  videoID : Str
  html : Str
deriving DecidableEq

/-- The possible outcomes of `Fetch`: a watch page, a `RateLimitError`, or
the `unexpected status code` error carrying the status. -/
inductive FetchOutcome where
  | page (p : WatchPage)
  | rateLimited (message : Str)
  | unexpectedStatus (code : Int)
deriving DecidableEq

/-- Embedding of `WatchPageFetcher.Fetch` response handling: `429` maps to
`RateLimitError`, any other status besides `200` maps to the
unexpected-status error, and `200` yields `WatchPage{videoID, body}`. -/
def Fetch (videoID : Str) (resp : HTTPResponse) : FetchOutcome :=
  if resp.statusCode = 429 then
    .rateLimited (str "YouTube returned 429 Too Many Requests")
  else if resp.statusCode ≠ 200 then
    .unexpectedStatus resp.statusCode
  else
    .page ⟨videoID, resp.body⟩

/-- C8: status `200` yields the watch page for the requested id with the body
as HTML; status `429` yields the rate-limited error; every other non-2xx
status yields the unexpected-status error carrying the code. -/
theorem c8_fetch_status (videoID : Str) (resp : HTTPResponse) :
    (resp.statusCode = 200 → Fetch videoID resp = .page ⟨videoID, resp.body⟩) ∧
    (resp.statusCode = 429 →
      Fetch videoID resp = .rateLimited (str "YouTube returned 429 Too Many Requests")) ∧
    (resp.statusCode ≠ 429 → ¬(200 ≤ resp.statusCode ∧ resp.statusCode < 300) →
      Fetch videoID resp = .unexpectedStatus resp.statusCode) := by
  refine ⟨?_, ?_, ?_⟩
  · intro h
    unfold Fetch
    rw [if_neg (by omega), if_neg (by omega)]
  · intro h
    unfold Fetch
    rw [if_pos h]
  · intro h429 h2xx
    unfold Fetch
    rw [if_neg h429, if_pos (by omega)]

/-- C8 witness: the theorem applied at statuses `200`, `429` and `500`. -/
theorem c8_fetch_status_witness :
    Fetch (str "dQw4w9WgXcQ") ⟨200, str "<html>ok"⟩ =
        .page ⟨str "dQw4w9WgXcQ", str "<html>ok"⟩ ∧
    Fetch (str "dQw4w9WgXcQ") ⟨429, []⟩ =
        .rateLimited (str "YouTube returned 429 Too Many Requests") ∧
    Fetch (str "dQw4w9WgXcQ") ⟨500, []⟩ = .unexpectedStatus 500 := by
  refine ⟨?_, ?_, ?_⟩
  · exact (c8_fetch_status (str "dQw4w9WgXcQ") ⟨200, str "<html>ok"⟩).1 (by decide)
  · exact (c8_fetch_status (str "dQw4w9WgXcQ") ⟨429, []⟩).2.1 (by decide)
  · exact (c8_fetch_status (str "dQw4w9WgXcQ") ⟨500, []⟩).2.2 (by decide) (by decide)

/-!
Stream manifest and download options (src/pkg/youtube/stream.go).
`Container` is a Go string type and is kept as a string.  Stream records
carry the fields the embedded operations consult (`Container`, `Height`,
`Bitrate`); the remaining descriptive fields (URLs, codecs, sizes…) are
never read by `GetDownloadOptions`/`SelectBestOption` and are omitted.
Go pointers (`*VideoStreamInfo`, `*AudioStreamInfo`) become `Option`s.
-/

/-- The `ContainerMP4` constant (`"mp4"`). -/
def containerMP4 : Str := str "mp4"

/-- The `ContainerWebM` constant (`"webm"`). -/
def containerWebM : Str := str "webm"

/-- Embedding of `VideoStreamInfo` (container and pixel height). -/
structure VideoStreamInfo where
  container : Str
  height : Int
deriving DecidableEq

/-- Embedding of `AudioStreamInfo` (container and bitrate). -/
structure AudioStreamInfo where
  container : Str
  bitrate : Int
deriving DecidableEq

/-- Embedding of `MuxedStreamInfo` (its video and audio payloads). -/
structure MuxedStreamInfo where
  video : VideoStreamInfo
  audio : AudioStreamInfo
deriving DecidableEq

/-- Embedding of `StreamManifest`. -/
structure StreamManifest where
  videoStreams : List VideoStreamInfo
  audioStreams : List AudioStreamInfo
  muxedStreams : List MuxedStreamInfo
deriving DecidableEq

/-- Embedding of `StreamManifest.GetBestAudioStream`: highest bitrate, first
wins ties (the Go loop starts from the first element and uses strict `>`). -/
def GetBestAudioStream (m : StreamManifest) : Option AudioStreamInfo :=
  match m.audioStreams with
  | [] => none
  | a :: _ =>
    some (m.audioStreams.foldl
      (fun best x => if x.bitrate > best.bitrate then x else best) a)

/-- Embedding of `StreamManifest.findBestAudioByContainer`: highest bitrate
among streams with the given container. -/
def findBestAudioByContainer (m : StreamManifest) (container : Str) :
    Option AudioStreamInfo :=
  m.audioStreams.foldl
    (fun best x =>
      if x.container == container then
        match best with
        | none => some x
        | some b => if x.bitrate > b.bitrate then some x else some b
      else best)
    none

/-- Embedding of `DownloadOption`. -/
structure DownloadOption where
  container : Str
  isAudioOnly : Bool
  videoStream : Option VideoStreamInfo
  audioStream : Option AudioStreamInfo
deriving DecidableEq

/-- Embedding of `StreamManifest.GetDownloadOptions`: video+audio options
from adaptive video streams (preferring a same-container audio stream, then
any best audio, else video-only), then muxed options, then audio-only
options. -/
def GetDownloadOptions (m : StreamManifest) : List DownloadOption :=
  let bestAudioMP4 := findBestAudioByContainer m containerMP4
  let bestAudioWebM := findBestAudioByContainer m containerWebM
  (m.videoStreams.map (fun vs =>
    let audioStream :=
      if vs.container == containerMP4 && bestAudioMP4.isSome then bestAudioMP4
      else if vs.container == containerWebM && bestAudioWebM.isSome then bestAudioWebM
      else GetBestAudioStream m
    { container := vs.container
      isAudioOnly := false
      videoStream := some vs
      audioStream := audioStream }))
  ++ (m.muxedStreams.map (fun ms =>
    { container := ms.video.container
      isAudioOnly := false
      videoStream := some ms.video
      audioStream := some ms.audio }))
  ++ (m.audioStreams.map (fun a =>
    { container := a.container
      isAudioOnly := true
      videoStream := none
      audioStream := some a }))

/-- An empty audio-stream list is the only way `GetBestAudioStream` comes
back empty. -/
theorem getBestAudioStream_eq_none_iff (m : StreamManifest) :
    GetBestAudioStream m = none ↔ m.audioStreams = [] := by
  unfold GetBestAudioStream
  cases h : m.audioStreams with
  | nil => simp
  | cons a rest => simp [h]

/-- C2: every option produced by `GetDownloadOptions` satisfies the
invariant: audio-only options have no video stream and do have an audio
stream; video options have a video stream, and can lack an audio stream only
when the manifest has no audio streams at all. -/
theorem c2_download_options_invariant (m : StreamManifest) (o : DownloadOption)
    (ho : o ∈ GetDownloadOptions m) :
    (o.isAudioOnly = true → o.videoStream = none ∧ o.audioStream ≠ none) ∧
    (o.isAudioOnly = false → o.videoStream ≠ none ∧
      (o.audioStream = none → m.audioStreams = [])) := by
  unfold GetDownloadOptions at ho
  rw [List.mem_append, List.mem_append] at ho
  rcases ho with (hv | hm) | ha
  · rw [List.mem_map] at hv
    obtain ⟨vs, _, rfl⟩ := hv
    refine ⟨fun h => by simp at h, fun _ => ⟨by simp, fun hn => ?_⟩⟩
    dsimp only at hn
    rw [← getBestAudioStream_eq_none_iff]
    split at hn
    · rename_i hcond
      rw [Bool.and_eq_true, Option.isSome_iff_ne_none] at hcond
      exact absurd hn hcond.2
    · split at hn
      · rename_i hcond
        rw [Bool.and_eq_true, Option.isSome_iff_ne_none] at hcond
        exact absurd hn hcond.2
      · exact hn
  · rw [List.mem_map] at hm
    obtain ⟨ms, _, rfl⟩ := hm
    exact ⟨fun h => by simp at h, fun _ => ⟨by simp, fun hn => by simp at hn⟩⟩
  · rw [List.mem_map] at ha
    obtain ⟨a, _, rfl⟩ := ha
    exact ⟨fun _ => ⟨rfl, by simp⟩, fun h => by simp at h⟩

/-- C2 witness: the theorem applied to a manifest with a single audio stream
and the audio-only option it generates. -/
theorem c2_download_options_invariant_witness :
    ({ container := containerMP4, isAudioOnly := true, videoStream := none,
       audioStream := some ⟨containerMP4, 128000⟩ } : DownloadOption).videoStream
        = none ∧
    ({ container := containerMP4, isAudioOnly := true, videoStream := none,
       audioStream := some ⟨containerMP4, 128000⟩ } : DownloadOption).audioStream
        ≠ none :=
  (c2_download_options_invariant ⟨[], [⟨containerMP4, 128000⟩], []⟩
    { container := containerMP4, isAudioOnly := true, videoStream := none,
      audioStream := some ⟨containerMP4, 128000⟩ }
    (by decide)).1 (by decide)

/-!
Download-option selection (`SelectBestOption`, stream.go).
`VideoQualityPreference` is a Go `int` type whose constants come from
`iota`; it is kept as `Int`.  The source's `for` loops are factored into
named helpers: `retainVideoOptions` is the filter loop over `options`,
`lowestHeightLoop`/`highestHeightLoop` are the running-minimum /
running-maximum loops (the maximum loops start from `0` exactly as the
source's `maxHeightFound := 0` / `maxHeightWithin := 0`), and
`selectFromFiltered` is the final preferred-container scan with its
first-element fallback.
-/

/-- The `QualityLowest` constant (`iota` value 0). -/
def qualityLowest : Int := 0

/-- The `QualityUpTo360p` constant (`iota` value 1). -/
def qualityUpTo360p : Int := 1

/-- The `QualityUpTo480p` constant (`iota` value 2). -/
def qualityUpTo480p : Int := 2

/-- The `QualityUpTo720p` constant (`iota` value 3). -/
def qualityUpTo720p : Int := 3

/-- The `QualityUpTo1080p` constant (`iota` value 4). -/
def qualityUpTo1080p : Int := 4

/-- The `QualityHighest` constant (`iota` value 5). -/
def qualityHighest : Int := 5

/-- Embedding of `VideoQualityPreference.MaxHeight`: 360/480/720/1080 for the
bounded preferences, 0 otherwise. -/
def MaxHeight (p : Int) : Int :=
  if p = qualityUpTo360p then 360
  else if p = qualityUpTo480p then 480
  else if p = qualityUpTo720p then 720
  else if p = qualityUpTo1080p then 1080
  else 0

/-- The height the selector reads from an option
(`options[i].VideoStream.Height`; the selector only reads it on options
whose video stream is present). -/
def videoHeight (o : DownloadOption) : Int :=
  match o.videoStream with
  | some vs => vs.height
  | none => 0

/-- The retain loop of `SelectBestOption`: keep non-audio-only options with a
present video stream. -/
def retainVideoOptions (options : List DownloadOption) : List DownloadOption :=
  options.filter (fun o => !o.isAudioOnly && o.videoStream.isSome)

/-- The quality filter of `SelectBestOption` for bounded preferences:
options with height at most the limit. -/
def withinLimitOf (l : List DownloadOption) (limit : Int) : List DownloadOption :=
  l.filter (fun o => decide (videoHeight o ≤ limit))

/-- The running-minimum height loop of `SelectBestOption`
(`if h < minHeight { minHeight = h }`). -/
def lowestHeightLoop (l : List DownloadOption) (init : Int) : Int :=
  l.foldl (fun acc o => if videoHeight o < acc then videoHeight o else acc) init

/-- The running-maximum height loop of `SelectBestOption`
(`if h > maxHeight { maxHeight = h }`). -/
def highestHeightLoop (l : List DownloadOption) (init : Int) : Int :=
  l.foldl (fun acc o => if videoHeight o > acc then videoHeight o else acc) init

/-- The final step of `SelectBestOption`: nil on an empty filtered set, else
the first option with the preferred container, else the first option. -/
def selectFromFiltered (filteredOptions : List DownloadOption)
    (preferredContainer : Str) : Option DownloadOption :=
  match filteredOptions with
  | [] => none
  | f0 :: _ =>
    match filteredOptions.find? (fun o => o.container == preferredContainer) with
    | some o => some o
    | none => some f0

/-- Embedding of `SelectBestOption` (stream.go): retain video options, apply
the quality filter (for a bounded preference, the highest height within the
limit, falling back to the minimum-height set when nothing is within the
limit), then prefer the requested container. -/
def SelectBestOption (options : List DownloadOption) (quality : Int)
    (preferredContainer : Str) : Option DownloadOption :=
  match options with
  | [] => none
  | _ :: _ =>
    let videoOptions := retainVideoOptions options
    match videoOptions with
    | [] => none
    | v0 :: _ =>
      let filteredOptions :=
        if quality = qualityLowest then
          let minHeight := lowestHeightLoop videoOptions (videoHeight v0)
          videoOptions.filter (fun o => videoHeight o == minHeight)
        else if quality = qualityHighest then
          let maxHeightFound := highestHeightLoop videoOptions 0
          videoOptions.filter (fun o => videoHeight o == maxHeightFound)
        else
          let withinLimit := withinLimitOf videoOptions (MaxHeight quality)
          match withinLimit with
          | [] =>
            let minHeight := lowestHeightLoop videoOptions (videoHeight v0)
            videoOptions.filter (fun o => videoHeight o == minHeight)
          | _ :: _ =>
            let maxHeightWithin := highestHeightLoop withinLimit 0
            withinLimit.filter (fun o => videoHeight o == maxHeightWithin)
      selectFromFiltered filteredOptions preferredContainer

/-- The heights of a list of options. -/
def heightsOf (l : List DownloadOption) : List Int := l.map videoHeight

/-- Specification-style final step: the first option with the preferred
container, otherwise the first option of the filtered set. -/
def selectPreferred (filtered : List DownloadOption) (preferredContainer : Str) :
    Option DownloadOption :=
  match filtered.find? (fun o => o.container == preferredContainer) with
  | some o => some o
  | none => filtered.head?

/-- The filtered set exactly as claim C1 describes it for a bounded
preference: the whole within-limit subset, or the minimum-height set when
nothing is within the limit. -/
def boundedFilterClaimed (retained : List DownloadOption) (limit : Int) :
    List DownloadOption :=
  let within := withinLimitOf retained limit
  if within.isEmpty then
    match (heightsOf retained).min? with
    | some m => retained.filter (fun o => videoHeight o == m)
    | none => []
  else within

/-- `SelectBestOption` exactly as claim C1 describes it for a bounded
preference. -/
def SelectBestOptionClaimed (options : List DownloadOption) (quality : Int)
    (preferredContainer : Str) : Option DownloadOption :=
  selectPreferred (boundedFilterClaimed (retainVideoOptions options) (MaxHeight quality))
    preferredContainer

/-- The amended filtered set for a bounded preference: the options of
maximum height within the limit, or the minimum-height set when nothing is
within the limit. -/
def boundedFilterAmended (retained : List DownloadOption) (limit : Int) :
    List DownloadOption :=
  let within := withinLimitOf retained limit
  match (heightsOf within).max? with
  | some m => within.filter (fun o => videoHeight o == m)
  | none =>
    match (heightsOf retained).min? with
    | some m => retained.filter (fun o => videoHeight o == m)
    | none => []

/-- `SelectBestOption` as amended claim C1 describes it for a bounded
preference. -/
def SelectBestOptionAmended (options : List DownloadOption) (quality : Int)
    (preferredContainer : Str) : Option DownloadOption :=
  selectPreferred (boundedFilterAmended (retainVideoOptions options) (MaxHeight quality))
    preferredContainer

/-- A 360p mp4 option used in the C1 scenarios. -/
def ceOptionA : DownloadOption :=
  { container := containerMP4, isAudioOnly := false,
    videoStream := some ⟨containerMP4, 360⟩,
    audioStream := some ⟨containerMP4, 128000⟩ }

/-- A 720p webm option used in the C1 scenarios. -/
def ceOptionB : DownloadOption :=
  { container := containerWebM, isAudioOnly := false,
    videoStream := some ⟨containerWebM, 720⟩,
    audioStream := some ⟨containerWebM, 160000⟩ }

/-- C1 counterexample: with a 360p mp4 option and a 720p webm option under
preference ≤1080p and preferred container mp4, the claim's filtered set is
the whole within-limit set, whose first mp4 member is the 360p option — but
the code first narrows to the maximum height within the limit and returns
the 720p webm option. -/
theorem c1_select_best_counterexample :
    SelectBestOptionClaimed [ceOptionA, ceOptionB] qualityUpTo1080p containerMP4 =
        some ceOptionA ∧
    SelectBestOption [ceOptionA, ceOptionB] qualityUpTo1080p containerMP4 =
        some ceOptionB ∧
    ceOptionA ≠ ceOptionB := by decide

/-- The running-minimum step is `min`. -/
theorem heightStepMin_eq :
    (fun (acc : Int) (o : DownloadOption) =>
        if videoHeight o < acc then videoHeight o else acc)
      = fun acc o => min acc (videoHeight o) := by
  funext acc o
  rcases lt_or_ge (videoHeight o) acc with h | h
  · rw [if_pos h, min_eq_right h.le]
  · rw [if_neg (not_lt.mpr h), min_eq_left h]

/-- The running-maximum step is `max`. -/
theorem heightStepMax_eq :
    (fun (acc : Int) (o : DownloadOption) =>
        if videoHeight o > acc then videoHeight o else acc)
      = fun acc o => max acc (videoHeight o) := by
  funext acc o
  rcases lt_or_ge acc (videoHeight o) with h | h
  · rw [if_pos h, max_eq_right h.le]
  · rw [if_neg (not_lt.mpr h), max_eq_left h]

/-- The source's minimum-height loop computes the minimum of the heights. -/
theorem lowestHeightLoop_min? (v0 : DownloadOption) (vs : List DownloadOption) :
    (heightsOf (v0 :: vs)).min? =
      some (lowestHeightLoop (v0 :: vs) (videoHeight v0)) := by
  unfold lowestHeightLoop
  rw [heightStepMin_eq]
  show some ((vs.map videoHeight).foldl min (videoHeight v0))
      = some (vs.foldl (fun acc o => min acc (videoHeight o))
          (min (videoHeight v0) (videoHeight v0)))
  rw [min_self, List.foldl_map]

/-- The source's zero-seeded maximum-height loop computes the maximum of the
heights as soon as the first height is nonnegative. -/
theorem highestHeightLoop_max? (w0 : DownloadOption) (ws : List DownloadOption)
    (h0 : 0 ≤ videoHeight w0) :
    (heightsOf (w0 :: ws)).max? = some (highestHeightLoop (w0 :: ws) 0) := by
  unfold highestHeightLoop
  rw [heightStepMax_eq]
  show some ((ws.map videoHeight).foldl max (videoHeight w0))
      = some (ws.foldl (fun acc o => max acc (videoHeight o)) (max 0 (videoHeight w0)))
  rw [max_eq_right h0, List.foldl_map]

/-- The code's final scan agrees with the specification-style
`find?`/`head?` formulation. -/
theorem selectFromFiltered_eq (l : List DownloadOption) (c : Str) :
    selectFromFiltered l c = selectPreferred l c := by
  cases l with
  | nil => rfl
  | cons f0 fs =>
    unfold selectFromFiltered selectPreferred
    cases h : (f0 :: fs).find? (fun o => o.container == c) with
    | some o => rfl
    | none => rfl

/-- Membership in the retained set implies membership in the input. -/
theorem mem_of_mem_retain {x : DownloadOption} {l : List DownloadOption}
    (h : x ∈ retainVideoOptions l) : x ∈ l :=
  List.mem_of_mem_filter h

/-- Membership in the within-limit set implies membership in the input. -/
theorem mem_of_mem_withinLimit {x : DownloadOption} {l : List DownloadOption}
    {limit : Int} (h : x ∈ withinLimitOf l limit) : x ∈ l :=
  List.mem_of_mem_filter h

/-- C1 (amended): for every bounded quality preference and nonnegative
heights, `SelectBestOption` retains the non-audio-only options with a
present video stream; the filtered set is the subset of retained options of
maximum height among those with height ≤ N — or, when no retained option is
within the limit, the minimum-height set across all retained options — and
the result is the first option of the filtered set with the preferred
container, else its first option; empty input or no viable option gives
nil. -/
theorem c1_select_best_amended (options : List DownloadOption) (quality : Int)
    (preferredContainer : Str)
    (hq : quality = qualityUpTo360p ∨ quality = qualityUpTo480p ∨
      quality = qualityUpTo720p ∨ quality = qualityUpTo1080p)
    (hnn : ∀ o ∈ options, 0 ≤ videoHeight o) :
    SelectBestOption options quality preferredContainer =
      SelectBestOptionAmended options quality preferredContainer := by
  have hq0 : ¬ quality = qualityLowest := by
    rcases hq with rfl | rfl | rfl | rfl <;> decide
  have hq5 : ¬ quality = qualityHighest := by
    rcases hq with rfl | rfl | rfl | rfl <;> decide
  cases options with
  | nil => rfl
  | cons o os =>
    unfold SelectBestOption SelectBestOptionAmended boundedFilterAmended
    dsimp only
    cases hvo : retainVideoOptions (o :: os) with
    | nil => rfl
    | cons v0 vs =>
      dsimp only
      rw [if_neg hq0, if_neg hq5]
      cases hwl : withinLimitOf (v0 :: vs) (MaxHeight quality) with
      | nil =>
        rw [selectFromFiltered_eq, lowestHeightLoop_min? v0 vs]
        rfl
      | cons w0 ws =>
        have hw0 : 0 ≤ videoHeight w0 := by
          have hmem : w0 ∈ withinLimitOf (v0 :: vs) (MaxHeight quality) := by
            rw [hwl]; exact List.mem_cons_self w0 ws
          have hmem2 : w0 ∈ retainVideoOptions (o :: os) := by
            rw [hvo]; exact mem_of_mem_withinLimit hmem
          exact hnn w0 (mem_of_mem_retain hmem2)
        rw [selectFromFiltered_eq, highestHeightLoop_max? w0 ws hw0]

/-- An mp4 option of the given height used in the C1 witness scenario. -/
def exOptionOfHeight (h : Int) : DownloadOption :=
  { container := containerMP4, isAudioOnly := false,
    videoStream := some ⟨containerMP4, h⟩,
    audioStream := some ⟨containerMP4, 128000⟩ }

/-- C1 witness: the amended theorem applied to mp4 options of heights
360/720/1080/2160 with preference ≤720p and preferred container mp4 — the
720p option is selected. -/
theorem c1_select_best_amended_witness :
    SelectBestOption
        [exOptionOfHeight 360, exOptionOfHeight 720,
         exOptionOfHeight 1080, exOptionOfHeight 2160]
        qualityUpTo720p containerMP4 = some (exOptionOfHeight 720) := by
  have h := c1_select_best_amended
    [exOptionOfHeight 360, exOptionOfHeight 720,
     exOptionOfHeight 1080, exOptionOfHeight 2160]
    qualityUpTo720p containerMP4 (by decide) (by decide)
  rw [h]
  decide

/-!
Filename templating (the `filename` package file).  `strings.ReplaceAll` is
embedded with structural fuel (one unit per consumed character) so that it
computes in the kernel; `ApplyTemplate` only ever calls it with nonempty
patterns.  `Video.UploadDate` (a `time.Time`) is consulted by
`ApplyTemplate` only through `IsZero` and `Format("2006-01-02")`, so it is
modelled as the formatted date string, `none` standing for the zero time;
the other `Video`/`Author` fields that `ApplyTemplate` never reads are
omitted.
-/

/-- Embedding of `Author` (only `Name` is read by `ApplyTemplate`). -/
structure Author where
  name : Str
deriving DecidableEq

/-- Embedding of `Video` as consumed by `ApplyTemplate`. -/
structure Video where
  id : Str
  title : Str
  author : Author
  uploadDate : Option Str
deriving DecidableEq

/-- The `invalidChars` constant: `<>:"/\|?*`. -/
def invalidChars : Str := str "<>:\"/\\|?*"

/-- Embedding of `SanitizeFilename`: map each invalid character to `_`, then
trim surrounding whitespace. -/
def SanitizeFilename (name : Str) : Str :=
  trimSpace (name.map (fun r => if invalidChars.contains r then '_' else r))

/-- Fuel-indexed body of `strings.ReplaceAll`: replace each occurrence of
`old`, scanning left to right. -/
def replaceAllFuel : Nat → Str → Str → Str → Str
  | 0, s, _, _ => s
  | _ + 1, [], _, _ => []
  | fuel + 1, c :: rest, old, new =>
    if !old.isEmpty && old.isPrefixOf (c :: rest) then
      new ++ replaceAllFuel fuel ((c :: rest).drop old.length) old new
    else
      c :: replaceAllFuel fuel rest old new

/-- Embedding of `strings.ReplaceAll` for nonempty patterns (each recursive
step consumes at least one character, so `length + 1` fuel suffices). -/
def replaceAll (s old new : Str) : Str :=
  replaceAllFuel (s.length + 1) s old new

/-- Embedding of `strings.Contains` (is `pat` a contiguous substring?). -/
def containsSeq : Str → Str → Bool
  | [], pat => pat.isEmpty
  | c :: rest, pat => pat.isPrefixOf (c :: rest) || containsSeq rest pat

/-- The fuel argument is irrelevant once it exceeds the string length. -/
theorem replaceAllFuel_congr : ∀ (n : Nat) (s : Str), s.length ≤ n →
    ∀ (old new : Str) (f g : Nat), s.length < f → s.length < g →
      replaceAllFuel f s old new = replaceAllFuel g s old new := by
  intro n
  induction n with
  | zero =>
    intro s hs old new f g hf hg
    cases s with
    | nil =>
      cases f with
      | zero => omega
      | succ f =>
        cases g with
        | zero => omega
        | succ g => rfl
    | cons c rest => simp at hs
  | succ n ih =>
    intro s hs old new f g hf hg
    cases s with
    | nil =>
      cases f with
      | zero => omega
      | succ f =>
        cases g with
        | zero => omega
        | succ g => rfl
    | cons c rest =>
      cases f with
      | zero => omega
      | succ f =>
        cases g with
        | zero => omega
        | succ g =>
          simp only [replaceAllFuel]
          by_cases hp : (!old.isEmpty && old.isPrefixOf (c :: rest)) = true
          · rw [if_pos hp, if_pos hp]
            congr 1
            have hone : 1 ≤ old.length := by
              rcases old with _ | ⟨d, ds⟩
              · simp at hp
              · simp
            have hdrop : ((c :: rest).drop old.length).length =
                (c :: rest).length - old.length := List.length_drop _ _
            simp only [List.length_cons] at hs hf hg
            apply ih
            · rw [hdrop]
              simp only [List.length_cons]
              omega
            · rw [hdrop]
              simp only [List.length_cons]
              omega
            · rw [hdrop]
              simp only [List.length_cons]
              omega
          · rw [if_neg hp, if_neg hp]
            congr 1
            simp only [List.length_cons] at hs hf hg
            apply ih <;> omega

/-- The defining equation of `replaceAll` on a nonempty string. -/
theorem replaceAll_cons (c : Char) (rest old new : Str) :
    replaceAll (c :: rest) old new =
      if !old.isEmpty && old.isPrefixOf (c :: rest) then
        new ++ replaceAll ((c :: rest).drop old.length) old new
      else c :: replaceAll rest old new := by
  show replaceAllFuel (rest.length + 1 + 1) (c :: rest) old new = _
  simp only [replaceAllFuel]
  by_cases hp : (!old.isEmpty && old.isPrefixOf (c :: rest)) = true
  · rw [if_pos hp, if_pos hp]
    congr 1
    have hone : 1 ≤ old.length := by
      rcases old with _ | ⟨d, ds⟩
      · simp at hp
      · simp
    have hdrop : ((c :: rest).drop old.length).length =
        (c :: rest).length - old.length := List.length_drop _ _
    apply replaceAllFuel_congr (((c :: rest).drop old.length).length) _ le_rfl
    · rw [hdrop]
      simp only [List.length_cons]
      omega
    · omega
  · rw [if_neg hp, if_neg hp]
    rfl

/-- A string that does not contain the pattern is left unchanged by
`replaceAll`. -/
theorem replaceAll_of_not_contains (s old new : Str)
    (h : containsSeq s old = false) : replaceAll s old new = s := by
  induction s with
  | nil => rfl
  | cons c rest ih =>
    simp only [containsSeq, Bool.or_eq_false_iff] at h
    rw [replaceAll_cons, if_neg (by simp [h.1])]
    rw [ih h.2]

/-- Replacing a nonempty pattern by `X` in the pattern itself gives `X`. -/
theorem replaceAll_self (old X : Str) (h : old ≠ []) :
    replaceAll old old X = X := by
  rcases old with _ | ⟨c, rest⟩
  · exact absurd rfl h
  · rw [replaceAll_cons, if_pos]
    · rw [List.drop_length]
      show X ++ replaceAll [] (c :: rest) X = X
      rw [show replaceAll [] (c :: rest) X = [] from rfl, List.append_nil]
    · simp [isPrefixOf_eq_true_iff]

/-- Dropping a satisfied prefix twice is the same as dropping it once. -/
theorem dropWhile_dropWhile (p : Char → Bool) (l : Str) :
    (l.dropWhile p).dropWhile p = l.dropWhile p := by
  induction l with
  | nil => rfl
  | cons c rest ih =>
    rw [List.dropWhile_cons]
    by_cases hp : p c = true
    · rw [if_pos hp, ih]
    · rw [if_neg hp, List.dropWhile_cons, if_neg hp]

/-- The head surviving `dropWhile` fails the predicate. -/
theorem head?_dropWhile_false (p : Char → Bool) (l : Str) (a : Char)
    (h : (l.dropWhile p).head? = some a) : p a = false := by
  induction l with
  | nil => simp at h
  | cons c rest ih =>
    rw [List.dropWhile_cons] at h
    by_cases hp : p c = true
    · rw [if_pos hp] at h
      exact ih h
    · rw [if_neg hp] at h
      simp only [List.head?_cons, Option.some.injEq] at h
      subst h
      exact Bool.not_eq_true _ ▸ eq_false_of_ne_true hp

/-- `dropWhile` keeps the last element of the list when its result is
nonempty. -/
theorem getLast?_dropWhile (p : Char → Bool) (l : Str)
    (h : l.dropWhile p ≠ []) : (l.dropWhile p).getLast? = l.getLast? := by
  induction l with
  | nil => simp at h
  | cons c rest ih =>
    rw [List.dropWhile_cons] at h ⊢
    by_cases hp : p c = true
    · rw [if_pos hp] at h ⊢
      rw [ih h]
      have hr : rest ≠ [] := by
        intro he
        subst he
        simp at h
      rcases rest with _ | ⟨b, rest⟩
      · exact absurd rfl hr
      · rfl
    · rw [if_neg hp]

/-- A list whose head fails the predicate is untouched by `dropWhile`. -/
theorem dropWhile_eq_self_of_head (p : Char → Bool) (l : Str)
    (h : ∀ a, l.head? = some a → p a = false) : l.dropWhile p = l := by
  cases l with
  | nil => rfl
  | cons c rest =>
    rw [List.dropWhile_cons, if_neg]
    simp [h c rfl]

/-- `trimSpace` is idempotent. -/
theorem trimSpace_trimSpace (s : Str) : trimSpace (trimSpace s) = trimSpace s := by
  unfold trimSpace
  have hw : (((s.dropWhile isSpaceGo).reverse.dropWhile isSpaceGo).reverse.dropWhile
      isSpaceGo) = ((s.dropWhile isSpaceGo).reverse.dropWhile isSpaceGo).reverse := by
    apply dropWhile_eq_self_of_head
    intro a ha
    rw [List.head?_reverse] at ha
    have hwne : (s.dropWhile isSpaceGo).reverse.dropWhile isSpaceGo ≠ [] := by
      intro he
      rw [he] at ha
      simp at ha
    rw [getLast?_dropWhile _ _ hwne, List.getLast?_reverse] at ha
    exact head?_dropWhile_false _ _ _ ha
  rw [hw, List.reverse_reverse, dropWhile_dropWhile]

/-- `trimSpace` of an already sanitized name is the name itself. -/
theorem trimSpace_sanitize (name : Str) :
    trimSpace (SanitizeFilename name) = SanitizeFilename name :=
  trimSpace_trimSpace _

/-- Embedding of `ApplyTemplate`: number placeholders first (empty
replacements when no number is given), then `$id`, `$title`, `$author`,
`$uploadDate`, then trim and append the container extension. -/
def ApplyTemplate (template : Str) (video : Video) (container : Str)
    (number : Str) : Str :=
  let r1 :=
    if !number.isEmpty then
      replaceAll (replaceAll template (str "$numc") number) (str "$num")
        (str "[" ++ number ++ str "]")
    else
      replaceAll (replaceAll template (str "$numc") []) (str "$num") []
  let r2 := replaceAll r1 (str "$id") (SanitizeFilename video.id)
  let r3 := replaceAll r2 (str "$title") (SanitizeFilename video.title)
  let r4 := replaceAll r3 (str "$author") (SanitizeFilename video.author.name)
  let uploadDate :=
    match video.uploadDate with
    | some d => d
    | none => []
  let r5 := replaceAll r4 (str "$uploadDate") uploadDate
  trimSpace r5 ++ str "." ++ container

/-- The sanitization exactly as claim C9 states it: replace each character
of `<>:"/\|?*` by an underscore and change nothing else (no trimming). -/
def sanitizeClaimed (name : Str) : Str :=
  name.map (fun r => if invalidChars.contains r then '_' else r)

/-- The video used in the C9 counterexample: its title has surrounding
spaces and mentions `$author`. -/
def ceVideo : Video :=
  { id := str "dQw4w9WgXcQ", title := str " $author ",
    author := ⟨str "B"⟩, uploadDate := none }

/-- C9 counterexample: on a title of `" $author "` with author name `"B"`,
the code trims the sanitized title and then substitutes the author name into
it, producing `"B.mp4"`, while the claim's replace-only sanitization demands
`" $author .mp4"`. -/
theorem c9_applytemplate_counterexample :
    ApplyTemplate (str "$title") ceVideo (str "mp4") [] = str "B.mp4" ∧
    sanitizeClaimed ceVideo.title ++ str ".mp4" = str " $author .mp4" ∧
    ApplyTemplate (str "$title") ceVideo (str "mp4") [] ≠
      sanitizeClaimed ceVideo.title ++ str ".mp4" := by decide

/-- C9 (amended): for every video whose sanitized title does not itself
contain the later placeholders `$author` or `$uploadDate`,
`ApplyTemplate("$title", video, "mp4", "")` equals
`SanitizeFilename(video.Title) + ".mp4"`, where `SanitizeFilename` replaces
each character of `<>:"/\|?*` by `_` and trims surrounding whitespace. -/
theorem c9_applytemplate_title (v : Video)
    (hauthor : containsSeq (SanitizeFilename v.title) (str "$author") = false)
    (hdate : containsSeq (SanitizeFilename v.title) (str "$uploadDate") = false) :
    ApplyTemplate (str "$title") v (str "mp4") [] =
      SanitizeFilename v.title ++ str ".mp4" := by
  unfold ApplyTemplate
  dsimp only
  rw [show (!List.isEmpty ([] : Str)) = false from rfl, if_neg (by simp)]
  rw [show replaceAll (replaceAll (str "$title") (str "$numc") []) (str "$num") []
      = str "$title" from by decide]
  rw [replaceAll_of_not_contains _ _ _ (by decide : containsSeq (str "$title")
      (str "$id") = false)]
  rw [replaceAll_self (str "$title") (SanitizeFilename v.title) (by decide)]
  rw [replaceAll_of_not_contains _ _ _ hauthor]
  rw [replaceAll_of_not_contains _ _ _ hdate]
  rw [trimSpace_sanitize, List.append_assoc]
  rfl

/-- C9 witness: the amended theorem applied to a title containing an invalid
character (`"a<b"` becomes `"a_b.mp4"`). -/
theorem c9_applytemplate_title_witness :
    ApplyTemplate (str "$title")
        ⟨str "dQw4w9WgXcQ", str "a<b", ⟨str "Channel"⟩, none⟩ (str "mp4") [] =
      str "a_b.mp4" := by
  have h := c9_applytemplate_title
    ⟨str "dQw4w9WgXcQ", str "a<b", ⟨str "Channel"⟩, none⟩ (by decide) (by decide)
  rw [h]
  decide

/-- C5 witness: the amended equivalence applied at the playlist id
`"RDabc"`, whose amended shape is the `RD` alternative with body `"abc"`. -/
theorem c5_playlistid_amended_witness : PlaylistIDShapeAmended (str "RDabc") :=
  (c5_playlistid_amended (str "RDabc")).mp (by decide)
